import Mathlib

/-!
Shallow embedding of the StudentOrg backend (TypeScript/Express/Prisma) for
verification of its permission-resolution model and task-board operations.

The relational store is modelled as a `DB` record of lists of rows; every
Prisma query used by the routes is translated into the corresponding pure
list operation (`findFirst` becomes `List.find?`, `findMany`/`where` becomes
`List.filter`, `create` appends a row, `update` maps over the rows,
`deleteMany` filters rows out).  Route handlers become pure functions from a
`DB` and the request data to an `ApiResult` together with the post-state.
-/

namespace StudentOrg

/-- Permission levels from `backend/src/types/enums.ts` (string constants
NONE / MEMBER / LEADER in the source). -/
inductive PermissionLevel
  | NONE
  | MEMBER
  | LEADER
deriving DecidableEq, Repr

/-- Task statuses from `backend/src/types/enums.ts`. -/
inductive TaskStatus
  | TODO
  | IN_PROGRESS
  | DONE
deriving DecidableEq, Repr

/-- Argument type of the `checkCommitteePermission` middleware factory:
`PermissionLevel | 'ADMIN'` in the source. -/
inductive Requirement
  | level (l : PermissionLevel)
  | ADMIN
deriving DecidableEq, Repr

/-- Organization row (columns not consulted by any modelled route, such as
description and logoUrl, are omitted). -/
structure Organization where
  id : Nat
  name : String
  adminUserId : Nat
deriving DecidableEq, Repr

/-- Role row (name/description omitted; not consulted by permission logic). -/
structure Role where
  id : Nat
  organizationId : Nat
deriving DecidableEq, Repr

/-- Committee row (name/description omitted). -/
structure Committee where
  id : Nat
  organizationId : Nat
deriving DecidableEq, Repr

/-- RoleCommitteePermission join row, unique per (roleId, committeeId) by the
index `role_committee_permissions_role_id_committee_id_key` in the migration. -/
structure RoleCommitteePermission where
  roleId : Nat
  committeeId : Nat
  permissionLevel : PermissionLevel
deriving DecidableEq, Repr

/-- UserRole join row, unique per (userId, roleId). -/
structure UserRole where
  userId : Nat
  roleId : Nat
deriving DecidableEq, Repr

/-- Task row.  `dueDate` is modelled as an abstract timestamp; `position` is
the SQL INTEGER column (so `Int`). -/
structure Task where
  id : Nat
  title : String
  description : Option String
  status : TaskStatus
  committeeId : Nat
  createdById : Nat
  dueDate : Option Nat
  position : Int
deriving DecidableEq, Repr

/-- TaskAssignment join row, unique per (taskId, userId). -/
structure TaskAssignment where
  taskId : Nat
  userId : Nat
deriving DecidableEq, Repr

/-- Comment row. -/
structure Comment where
  id : Nat
  content : String
  taskId : Nat
  userId : Nat
deriving DecidableEq, Repr

/-- The relational store: one list of rows per table. -/
structure DB where
  organizations : List Organization
  roles : List Role
  committees : List Committee
  userRoles : List UserRole
  rolePermissions : List RoleCommitteePermission
  tasks : List Task
  taskAssignments : List TaskAssignment
  comments : List Comment
deriving DecidableEq, Repr

/-- Outcome of a route handler: the payload on success, otherwise the HTTP
error class the handler responds with (400 / 401 / 403 / 404 / 409-or-400
conflict / 500). -/
inductive ApiResult (α : Type)
  | ok (val : α)
  | badRequest
  | unauthorized
  | forbidden
  | notFound
  | conflict
  | serverError
deriving DecidableEq, Repr

/-- Outcome of the `checkCommitteePermission` middleware: either the request
proceeds to the handler (carrying `req.isAdmin` and `req.userPermission` as
set by the middleware) or it is answered with 401 / 400 / 403. -/
inductive MWResult
  | proceed (isAdmin : Bool) (userPermission : Option PermissionLevel)
  | unauthorized
  | badRequest
  | forbidden
deriving DecidableEq, Repr

/-- Models `prisma.organization.findFirst({ where: { adminUserId: userId } })`:
the admin lookup that is NOT scoped to any particular organization. -/
def findOrg (db : DB) (userId : Nat) : Option Organization :=
  db.organizations.find? (fun o => o.adminUserId == userId)

/-- Models `prisma.organization.findFirst({ where: { id: orgId, adminUserId:
userId } })`: the admin lookup scoped to a given organization. -/
def findOrgScoped (db : DB) (orgId userId : Nat) : Option Organization :=
  db.organizations.find? (fun o => o.id == orgId && o.adminUserId == userId)

/-- Models `prisma.userRole.findMany({ where: { userId } })`. -/
def userRolesOf (db : DB) (userId : Nat) : List UserRole :=
  db.userRoles.filter (fun ur => ur.userId == userId)

/-- Models the `permissions: { where: { committeeId } }` include on a role:
all permission rows of the role scoped to the committee. -/
def rolePermsForCommittee (db : DB) (roleId committeeId : Nat) :
    List RoleCommitteePermission :=
  db.rolePermissions.filter
    (fun p => p.roleId == roleId && p.committeeId == committeeId)

/-- Inner loop of the highest-permission scan (`for (const permission of
userRole.role.permissions)` in `checkCommitteePermission` and in the GET
/committees/:id handler): a LEADER row breaks out immediately; a MEMBER row
upgrades the accumulator only from NONE. -/
def scanPerms (perms : List RoleCommitteePermission)
    (acc : PermissionLevel) : PermissionLevel :=
  match perms with
  | [] => acc
  | p :: rest =>
    if p.permissionLevel = PermissionLevel.LEADER then PermissionLevel.LEADER
    else if p.permissionLevel = PermissionLevel.MEMBER ∧
        acc = PermissionLevel.NONE then
      scanPerms rest PermissionLevel.MEMBER
    else
      scanPerms rest acc

/-- Outer loop of the highest-permission scan (`for (const userRole of
userRoles)`): after each role the loop breaks once LEADER is reached. -/
def scanUserRoles (db : DB) (committeeId : Nat) (urs : List UserRole)
    (acc : PermissionLevel) : PermissionLevel :=
  match urs with
  | [] => acc
  | ur :: rest =>
    let acc2 := scanPerms (rolePermsForCommittee db ur.roleId committeeId) acc
    if acc2 = PermissionLevel.LEADER then acc2
    else scanUserRoles db committeeId rest acc2

/-- The `highestPermission` computation shared by `checkCommitteePermission`
and the GET /committees/:id handler: scan all of the user's roles and their
permission rows for the committee, starting from NONE. -/
def highestPermission (db : DB) (userId committeeId : Nat) : PermissionLevel :=
  scanUserRoles db committeeId (userRolesOf db userId) PermissionLevel.NONE

/-- The access test repeated verbatim in the GET /tasks/:id, PATCH
/tasks/:id/status and POST /tasks/:id/comments handlers:
`userRoles.some(ur => ur.role.permissions.some(p => p.permissionLevel !==
NONE))` with the permissions include scoped to the committee. -/
def hasAccessScan (db : DB) (userId committeeId : Nat) : Bool :=
  (userRolesOf db userId).any (fun ur =>
    (rolePermsForCommittee db ur.roleId committeeId).any
      (fun p => p.permissionLevel != PermissionLevel.NONE))

/-- The `checkCommitteePermission(requiredLevel)` middleware from
`backend/src/middleware/permissions.ts`.  Note that the organization-admin
lookup is not scoped to the committee's organization, and that the admin
short-circuit fires only when the declared requirement is ADMIN; for MEMBER
and LEADER requirements the admin falls through to the role scan. -/
def checkCommitteePermission (requiredLevel : Requirement) (db : DB)
    (userId : Option Nat) (committeeId : Option Nat) : MWResult :=
  match userId with
  | none => MWResult.unauthorized
  | some uid =>
    match committeeId with
    | none => MWResult.badRequest
    | some cid =>
      if (findOrg db uid).isSome ∧ requiredLevel = Requirement.ADMIN then
        MWResult.proceed true none
      else
        let highest := highestPermission db uid cid
        if requiredLevel = Requirement.level PermissionLevel.LEADER then
          if highest ≠ PermissionLevel.LEADER then MWResult.forbidden
          else MWResult.proceed false (some highest)
        else if requiredLevel = Requirement.level PermissionLevel.MEMBER then
          if highest ≠ PermissionLevel.MEMBER ∧
              highest ≠ PermissionLevel.LEADER then
            MWResult.forbidden
          else MWResult.proceed false (some highest)
        else
          MWResult.proceed false (some highest)

/-- The `checkIsAdmin` middleware: grants exactly when the caller is the
admin of SOME organization (no committee in sight). -/
def checkIsAdmin (db : DB) (userId : Nat) : Bool :=
  (findOrg db userId).isSome

/-- Permission resolution of the GET /committees/:id handler (committees.ts):
admin of the committee's owning organization resolves to LEADER outright,
otherwise the role scan decides. -/
def getCommitteeUserPermission (db : DB) (userId : Nat) (c : Committee) :
    PermissionLevel :=
  if (findOrgScoped db c.organizationId userId).isSome then
    PermissionLevel.LEADER
  else
    highestPermission db userId c.id

/-- Request body of POST /tasks (`createTaskSchema`). -/
structure CreateTaskRequest where
  title : String
  description : Option String
  committeeId : Nat
  dueDate : Option Nat
  assigneeIds : Option (List Nat)
deriving DecidableEq, Repr

/-- One entry of the POST /roles/permissions body (`setPermissionsSchema`):
the request may also carry level NONE, which is filtered out before rows are
created. -/
structure PermissionEntry where
  committeeId : Nat
  permissionLevel : PermissionLevel
deriving DecidableEq, Repr

/-- Tasks of a committee currently in the TODO column; the set the POST
/tasks handler queries (`findFirst` with `where: { committeeId, status:
TODO }, orderBy: { position: 'desc' }`) to pick the next position. -/
def todoTasks (db : DB) (committeeId : Nat) : List Task :=
  db.tasks.filter (fun t =>
    t.committeeId == committeeId && t.status == TaskStatus.TODO)

/-- One status column of a committee's board: the GET /tasks/committee route
returns all of the committee's tasks ordered by (status, position) and the
board partitions them by status. -/
def tasksInColumn (db : DB) (committeeId : Nat) (st : TaskStatus) :
    List Task :=
  db.tasks.filter (fun t => t.committeeId == committeeId && t.status == st)

/-- Position assigned by the POST /tasks handler: `lastTask.position + 1`
where `lastTask` is the first TODO task of the committee in descending
position order (so the greatest position), or 0 when the TODO column is
empty. -/
def nextTodoPosition (db : DB) (committeeId : Nat) : Int :=
  match ((todoTasks db committeeId).map Task.position).max? with
  | some m => m + 1
  | none => 0

/-- Row inserted by the POST /tasks handler.  The `status` column is not
supplied by the insert and takes the schema default 'TODO'. -/
def newTask (db : DB) (userId : Nat) (req : CreateTaskRequest)
    (newId : Nat) : Task :=
  { id := newId, title := req.title, description := req.description,
    status := TaskStatus.TODO, committeeId := req.committeeId,
    createdById := userId, dueDate := req.dueDate,
    position := nextTodoPosition db req.committeeId }

/-- Handler body of POST /tasks (after the LEADER middleware).  A missing
committee makes the insert violate its foreign key, which the catch-all
turns into a 500. -/
def createTaskHandler (db : DB) (userId : Nat) (req : CreateTaskRequest)
    (newId : Nat) : ApiResult Task × DB :=
  match db.committees.find? (fun c => c.id == req.committeeId) with
  | none => (ApiResult.serverError, db)
  | some _ =>
    let t : Task := newTask db userId req newId
    let assignments :=
      (req.assigneeIds.getD []).map (fun uid => TaskAssignment.mk newId uid)
    (ApiResult.ok t,
      { db with tasks := db.tasks ++ [t],
                taskAssignments := db.taskAssignments ++ assignments })

/-- Full POST /tasks route: `checkCommitteePermission(LEADER)` middleware
(fed `req.body.committeeId`) followed by the handler.  On a middleware
rejection nothing is written. -/
def postTask (db : DB) (userId : Option Nat) (req : CreateTaskRequest)
    (newId : Nat) : ApiResult Task × DB :=
  match checkCommitteePermission (Requirement.level PermissionLevel.LEADER)
      db userId (some req.committeeId) with
  | MWResult.proceed _ _ =>
    match userId with
    | some uid => createTaskHandler db uid req newId
    | none => (ApiResult.unauthorized, db)
  | MWResult.unauthorized => (ApiResult.unauthorized, db)
  | MWResult.badRequest => (ApiResult.badRequest, db)
  | MWResult.forbidden => (ApiResult.forbidden, db)

/-- GET /tasks/:id handler: 404 when the task is missing; the committee is
loaded through the task's foreign key; the admin check is scoped to the
committee's owning organization; otherwise any permission row other than
NONE across the user's roles grants read access. -/
def getTask (db : DB) (userId taskId : Nat) : ApiResult Task :=
  match db.tasks.find? (fun t => t.id == taskId) with
  | none => ApiResult.notFound
  | some task =>
    match db.committees.find? (fun c => c.id == task.committeeId) with
    | none => ApiResult.serverError
    | some committee =>
      if (findOrgScoped db committee.organizationId userId).isSome then
        ApiResult.ok task
      else if hasAccessScan db userId task.committeeId then
        ApiResult.ok task
      else
        ApiResult.forbidden

/-- PATCH /tasks/:id/status handler: member-or-leader (or owning-org admin)
gate, then `prisma.task.update` setting `status` and `position: position ??
existingTask.position`.  All other columns and tables are untouched. -/
def updateTaskStatus (db : DB) (userId taskId : Nat) (status : TaskStatus)
    (position : Option Int) : ApiResult Task × DB :=
  match db.tasks.find? (fun t => t.id == taskId) with
  | none => (ApiResult.notFound, db)
  | some existingTask =>
    match db.committees.find? (fun c => c.id == existingTask.committeeId) with
    | none => (ApiResult.serverError, db)
    | some committee =>
      let hasAccess :=
        match findOrgScoped db committee.organizationId userId with
        | some _ => true
        | none => hasAccessScan db userId existingTask.committeeId
      if hasAccess then
        let updated : Task :=
          { existingTask with status := status,
                              position := position.getD existingTask.position }
        (ApiResult.ok updated,
          { db with tasks := (db.tasks.map
              (fun t => if t.id == taskId then updated else t)) })
      else
        (ApiResult.forbidden, db)

/-- POST /tasks/:id/comments handler: the same member-or-leader gate as the
status route, then a comment row is created. -/
def addComment (db : DB) (userId taskId : Nat) (content : String)
    (newId : Nat) : ApiResult Comment × DB :=
  match db.tasks.find? (fun t => t.id == taskId) with
  | none => (ApiResult.notFound, db)
  | some existingTask =>
    match db.committees.find? (fun c => c.id == existingTask.committeeId) with
    | none => (ApiResult.serverError, db)
    | some committee =>
      let hasAccess :=
        match findOrgScoped db committee.organizationId userId with
        | some _ => true
        | none => hasAccessScan db userId existingTask.committeeId
      if hasAccess then
        let c : Comment :=
          { id := newId, content := content, taskId := taskId,
            userId := userId }
        (ApiResult.ok c, { db with comments := db.comments ++ [c] })
      else
        (ApiResult.forbidden, db)

/-- DELETE /committees/:id route: gated by `checkIsAdmin` only (the admin of
ANY organization passes; the committee's owning organization is never
consulted), then the row is deleted with cascades to its permission rows,
tasks, and the deleted tasks' assignments and comments.  Deleting a missing
committee makes Prisma throw, caught as a 500. -/
def deleteCommittee (db : DB) (userId committeeId : Nat) :
    ApiResult Unit × DB :=
  if checkIsAdmin db userId then
    match db.committees.find? (fun c => c.id == committeeId) with
    | none => (ApiResult.serverError, db)
    | some _ =>
      (ApiResult.ok (),
        { db with
          committees := db.committees.filter (fun c => !(c.id == committeeId)),
          rolePermissions := db.rolePermissions.filter
            (fun p => !(p.committeeId == committeeId)),
          tasks := db.tasks.filter (fun t => !(t.committeeId == committeeId)),
          taskAssignments := db.taskAssignments.filter (fun a =>
            !(db.tasks.any (fun t =>
              t.id == a.taskId && t.committeeId == committeeId))),
          comments := db.comments.filter (fun cm =>
            !(db.tasks.any (fun t =>
              t.id == cm.taskId && t.committeeId == committeeId))) })
  else
    (ApiResult.forbidden, db)

/-- POST /organizations handler: reject with the Conflict error
('Organization already exists for this user') when the caller is already
some organization's admin, else insert the new organization with the caller
as `adminUserId`. -/
def createOrganization (db : DB) (userId : Nat) (name : String)
    (newId : Nat) : ApiResult Organization × DB :=
  match findOrg db userId with
  | some _ => (ApiResult.conflict, db)
  | none =>
    let org : Organization := { id := newId, name := name,
                                adminUserId := userId }
    (ApiResult.ok org, { db with organizations := db.organizations ++ [org] })

/-- Rows the POST /roles/permissions handler passes to `createMany`: the
request entries whose level is not NONE, keyed to the role. -/
def rowsToCreate (roleId : Nat) (permissions : List PermissionEntry) :
    List RoleCommitteePermission :=
  (permissions.filter
    (fun p => !(p.permissionLevel == PermissionLevel.NONE))).map
    (fun p => RoleCommitteePermission.mk roleId p.committeeId
      p.permissionLevel)

/-- Success condition of the handler's single `createMany` statement: the
new rows must violate neither the (role_id, committee_id) unique index —
only possible among themselves, since the role's old rows were just deleted
and every remaining row carries another role id — nor the role and
committee foreign keys. -/
@[reducible] def createManyOk (db : DB) (roleId : Nat)
    (toCreate : List RoleCommitteePermission) : Prop :=
  (toCreate.map RoleCommitteePermission.committeeId).Nodup ∧
  (toCreate = [] ∨ db.roles.any (fun r => r.id == roleId)) ∧
  (toCreate.all (fun p => db.committees.any (fun c => c.id == p.committeeId)))

/-- POST /roles/permissions route: `checkIsAdmin`, then `deleteMany` of the
role's permission rows, then `createMany` of the rows to create.  The
`createMany` is one statement: it fails as a whole (500) unless
`createManyOk` holds, and the deletions are already committed when that
happens (no transaction spans the two statements). -/
def setRolePermissions (db : DB) (userId roleId : Nat)
    (permissions : List PermissionEntry) : ApiResult Unit × DB :=
  if checkIsAdmin db userId then
    let afterDelete :=
      { db with rolePermissions :=
          db.rolePermissions.filter (fun p => !(p.roleId == roleId)) }
    let toCreate := rowsToCreate roleId permissions
    if createManyOk db roleId toCreate then
      (ApiResult.ok (),
        { afterDelete with rolePermissions :=
            afterDelete.rolePermissions ++ toCreate })
    else
      (ApiResult.serverError, afterDelete)
  else
    (ApiResult.forbidden, db)

/-- Uniqueness of the (roleId, committeeId) key across stored permission
rows — the unique index of the migration. -/
@[reducible] def permKeysUnique (l : List RoleCommitteePermission) : Prop :=
  l.Pairwise (fun a b => ¬(a.roleId = b.roleId ∧ a.committeeId = b.committeeId))

/-- Absence of persisted NONE rows: NONE is represented by row absence. -/
@[reducible] def noNoneRows (l : List RoleCommitteePermission) : Prop :=
  ∀ p ∈ l, p.permissionLevel ≠ PermissionLevel.NONE

/-- Binary maximum in the order NONE < MEMBER < LEADER; used to state the
specification's `max(permission(Ri, C) for all i)`. -/
def lmax (a b : PermissionLevel) : PermissionLevel :=
  match a, b with
  | PermissionLevel.LEADER, _ => PermissionLevel.LEADER
  | _, PermissionLevel.LEADER => PermissionLevel.LEADER
  | PermissionLevel.MEMBER, _ => PermissionLevel.MEMBER
  | _, PermissionLevel.MEMBER => PermissionLevel.MEMBER
  | _, _ => PermissionLevel.NONE

/-- Permission granted by an optional row: NONE when the row is absent. -/
def permOfFind (o : Option RoleCommitteePermission) : PermissionLevel :=
  match o with
  | some p => p.permissionLevel
  | none => PermissionLevel.NONE

/-- Permission granted to a role on a committee by its (at most one) stored
row; a missing row contributes NONE.  This is the specification's
`permission(Ri, C)`. -/
def rolePermLevel (db : DB) (roleId committeeId : Nat) : PermissionLevel :=
  permOfFind (db.rolePermissions.find?
    (fun p => p.roleId == roleId && p.committeeId == committeeId))

/-- Resolver as worded by the specification: the maximum over the user's
roles of the permission each role grants on the committee. -/
def specResolve (db : DB) (userId committeeId : Nat) : PermissionLevel :=
  ((userRolesOf db userId).map
    (fun ur => rolePermLevel db ur.roleId committeeId)).foldl lmax
    PermissionLevel.NONE

lemma lmax_none_right (a : PermissionLevel) : lmax a PermissionLevel.NONE = a := by
  cases a <;> rfl

lemma lmax_leader_left (b : PermissionLevel) :
    lmax PermissionLevel.LEADER b = PermissionLevel.LEADER := by
  cases b <;> rfl

lemma foldl_lmax_leader {α : Type} (f : α → PermissionLevel) (l : List α) :
    l.foldl (fun a x => lmax a (f x)) PermissionLevel.LEADER =
      PermissionLevel.LEADER := by
  induction l with
  | nil => rfl
  | cons x xs ih => simp only [List.foldl_cons, lmax_leader_left]; exact ih

lemma scanPerms_single (p : RoleCommitteePermission) (acc : PermissionLevel) :
    scanPerms [p] acc = lmax acc p.permissionLevel := by
  cases hp : p.permissionLevel <;> cases acc <;> simp [scanPerms, lmax, hp]

/-- On a store whose (roleId, committeeId) keys are unique, the inner scan
over the rows matching a key computes the maximum of the accumulator and the
level granted by the (at most one) matching row. -/
lemma scanPerms_filter_eq (r c : Nat) (l : List RoleCommitteePermission)
    (hu : permKeysUnique l) (acc : PermissionLevel) :
    scanPerms (l.filter (fun p => p.roleId == r && p.committeeId == c)) acc =
      lmax acc
        (permOfFind (l.find? (fun p => p.roleId == r && p.committeeId == c))) := by
  induction l generalizing acc with
  | nil => simp [scanPerms, permOfFind, lmax_none_right]
  | cons p rest ih =>
    rw [permKeysUnique, List.pairwise_cons] at hu
    by_cases hp : (p.roleId == r && p.committeeId == c) = true
    · have hkey : p.roleId = r ∧ p.committeeId = c := by
        simpa using hp
      have hrest :
          rest.filter (fun q => q.roleId == r && q.committeeId == c) = [] := by
        rw [List.filter_eq_nil_iff]
        intro q hq
        have hq2 := hu.1 q hq
        simp only [Bool.and_eq_true, beq_iff_eq, not_and]
        intro h1 h2
        exact hq2 ⟨by rw [hkey.1, h1], by rw [hkey.2, h2]⟩
      rw [List.filter_cons_of_pos (p := fun (q : RoleCommitteePermission) =>
            q.roleId == r && q.committeeId == c) hp,
          List.find?_cons_of_pos (p := fun (q : RoleCommitteePermission) =>
            q.roleId == r && q.committeeId == c) rest hp, hrest]
      exact scanPerms_single p acc
    · rw [List.filter_cons_of_neg (p := fun (q : RoleCommitteePermission) =>
            q.roleId == r && q.committeeId == c) hp,
          List.find?_cons_of_neg (p := fun (q : RoleCommitteePermission) =>
            q.roleId == r && q.committeeId == c) rest hp]
      exact ih hu.2 acc

/-- On a store with unique keys, the role-by-role scan with its LEADER early
exit computes a fold of the maximum over the per-role levels. -/
lemma scanUserRoles_eq_foldl (db : DB) (c : Nat)
    (hu : permKeysUnique db.rolePermissions) (urs : List UserRole)
    (acc : PermissionLevel) :
    scanUserRoles db c urs acc =
      urs.foldl (fun a ur =>
        lmax a (permOfFind (db.rolePermissions.find?
          (fun p => p.roleId == ur.roleId && p.committeeId == c)))) acc := by
  induction urs generalizing acc with
  | nil => rfl
  | cons ur rest ih =>
    have h2 : scanPerms (rolePermsForCommittee db ur.roleId c) acc =
        lmax acc (permOfFind (db.rolePermissions.find?
          (fun p => p.roleId == ur.roleId && p.committeeId == c))) :=
      scanPerms_filter_eq ur.roleId c db.rolePermissions hu acc
    rw [scanUserRoles, h2, List.foldl_cons]
    by_cases hL : lmax acc (permOfFind (db.rolePermissions.find?
        (fun p => p.roleId == ur.roleId && p.committeeId == c))) =
        PermissionLevel.LEADER
    · rw [if_pos hL, hL, foldl_lmax_leader]
    · rw [if_neg hL]
      exact ih _

lemma scanPerms_of_all_none (l : List RoleCommitteePermission)
    (acc : PermissionLevel)
    (h : ∀ p ∈ l, p.permissionLevel = PermissionLevel.NONE) :
    scanPerms l acc = acc := by
  induction l generalizing acc with
  | nil => rfl
  | cons p rest ih =>
    have hp := h p (List.mem_cons_self _ _)
    rw [scanPerms, if_neg (by rw [hp]; intro hc; cases hc),
      if_neg (by rw [hp]; rintro ⟨hc, _⟩; cases hc)]
    exact ih acc (fun q hq => h q (List.mem_cons_of_mem _ hq))

lemma scanUserRoles_of_all_none (db : DB) (c : Nat) (urs : List UserRole)
    (acc : PermissionLevel)
    (h : ∀ ur ∈ urs, ∀ p ∈ rolePermsForCommittee db ur.roleId c,
      p.permissionLevel = PermissionLevel.NONE) :
    scanUserRoles db c urs acc = acc := by
  induction urs with
  | nil => rfl
  | cons ur rest ih =>
    rw [scanUserRoles,
      scanPerms_of_all_none _ _ (h ur (List.mem_cons_self _ _))]
    by_cases hL : acc = PermissionLevel.LEADER
    · rw [if_pos hL]
    · rw [if_neg hL]
      exact ih (fun x hx => h x (List.mem_cons_of_mem _ hx))

/-- When the handlers' any-row-not-NONE test fails, the resolver yields
NONE. -/
lemma highest_none_of_not_hasAccess (db : DB) (u c : Nat)
    (h : hasAccessScan db u c = false) :
    highestPermission db u c = PermissionLevel.NONE := by
  rw [hasAccessScan, List.any_eq_false] at h
  rw [highestPermission]
  apply scanUserRoles_of_all_none
  intro ur hur p hp
  have h2 := h ur hur
  have h2f : (rolePermsForCommittee db ur.roleId c).any
      (fun p => p.permissionLevel != PermissionLevel.NONE) = false :=
    Bool.eq_false_iff.mpr h2
  rw [List.any_eq_false] at h2f
  have h3 := h2f p hp
  simpa using h3

/-- Conversely, a user whose resolved level is not NONE passes the handlers'
any-row test. -/
lemma hasAccess_of_highest_ne_none (db : DB) (u c : Nat)
    (h : highestPermission db u c ≠ PermissionLevel.NONE) :
    hasAccessScan db u c = true := by
  cases hb : hasAccessScan db u c
  · exact absurd (highest_none_of_not_hasAccess db u c hb) h
  · rfl

lemma find?_append_of_none {α : Type} (p : α → Bool) (l1 l2 : List α)
    (h : ∀ x ∈ l1, p x = false) : (l1 ++ l2).find? p = l2.find? p := by
  induction l1 with
  | nil => rfl
  | cons a t ih =>
    rw [List.cons_append, List.find?_cons_of_neg]
    · exact ih (fun x hx => h x (List.mem_cons_of_mem _ hx))
    · simp [h a (List.mem_cons_self _ _)]

lemma map_eq_self_of {α : Type} (f : α → α) (l : List α)
    (h : ∀ x ∈ l, f x = x) : l.map f = l := by
  induction l with
  | nil => rfl
  | cons a t ih =>
    rw [List.map_cons, h a (List.mem_cons_self _ _),
      ih (fun x hx => h x (List.mem_cons_of_mem _ hx))]

lemma filter_not_role_idem (l : List RoleCommitteePermission) (r : Nat) :
    (l.filter (fun p => !(p.roleId == r))).filter (fun p => !(p.roleId == r)) =
      l.filter (fun p => !(p.roleId == r)) := by
  induction l with
  | nil => rfl
  | cons a t ih =>
    by_cases h : (a.roleId == r) = true
    · simp [List.filter_cons, h, ih]
    · simp [List.filter_cons, eq_false_of_ne_true h, ih]

lemma filter_not_role_of_created (r : Nat) (ps : List PermissionEntry) :
    ((ps.map (fun p =>
      RoleCommitteePermission.mk r p.committeeId p.permissionLevel)).filter
        (fun p => !(p.roleId == r))) = [] := by
  induction ps with
  | nil => rfl
  | cons a t ih => simp [List.filter_cons, ih]

/-- Evaluation of the PATCH /tasks/:id/status handler when the task and its
committee exist and the access gate passes. -/
lemma updateTaskStatus_eq (db : DB) (u tid : Nat) (t : Task) (c : Committee)
    (s : TaskStatus) (pos : Option Int)
    (ht : db.tasks.find? (fun x => x.id == tid) = some t)
    (hc : db.committees.find? (fun x => x.id == t.committeeId) = some c)
    (hacc : (match findOrgScoped db c.organizationId u with
             | some _ => true
             | none => hasAccessScan db u t.committeeId) = true) :
    updateTaskStatus db u tid s pos =
      (ApiResult.ok { t with status := s, position := pos.getD t.position },
       { db with tasks := (db.tasks.map (fun x =>
           if x.id == tid then
             { t with status := s, position := pos.getD t.position }
           else x)) }) := by
  simp [updateTaskStatus, ht, hc, hacc]

/-- Evaluation of the PATCH /tasks/:id/status handler when the access gate
fails: 403 and no change. -/
lemma updateTaskStatus_forbidden (db : DB) (u tid : Nat) (t : Task)
    (c : Committee) (s : TaskStatus) (pos : Option Int)
    (ht : db.tasks.find? (fun x => x.id == tid) = some t)
    (hc : db.committees.find? (fun x => x.id == t.committeeId) = some c)
    (hacc : (match findOrgScoped db c.organizationId u with
             | some _ => true
             | none => hasAccessScan db u t.committeeId) = false) :
    updateTaskStatus db u tid s pos = (ApiResult.forbidden, db) := by
  simp [updateTaskStatus, ht, hc, hacc]

/-- Evaluation of the PATCH /tasks/:id/status handler when the task's
committee row is absent (broken foreign key): 500 and no change. -/
lemma updateTaskStatus_noCommittee (db : DB) (u tid : Nat) (t : Task)
    (s : TaskStatus) (pos : Option Int)
    (ht : db.tasks.find? (fun x => x.id == tid) = some t)
    (hc : db.committees.find? (fun x => x.id == t.committeeId) = none) :
    updateTaskStatus db u tid s pos = (ApiResult.serverError, db) := by
  simp [updateTaskStatus, ht, hc]

/-- Evaluation of the POST /tasks/:id/comments handler when the task and its
committee exist and the access gate passes. -/
lemma addComment_eq (db : DB) (u tid newId : Nat) (content : String)
    (t : Task) (c : Committee)
    (ht : db.tasks.find? (fun x => x.id == tid) = some t)
    (hc : db.committees.find? (fun x => x.id == t.committeeId) = some c)
    (hacc : (match findOrgScoped db c.organizationId u with
             | some _ => true
             | none => hasAccessScan db u t.committeeId) = true) :
    addComment db u tid content newId =
      (ApiResult.ok (Comment.mk newId content tid u),
       { db with comments := db.comments ++ [Comment.mk newId content tid u] }) := by
  simp [addComment, ht, hc, hacc]

/-- Example store: one organization (admin user 10) owning committee 5;
role 7 grants MEMBER and role 8 grants LEADER on committee 5; user 3 holds
only role 7, user 4 holds roles 7 and 8; one TODO task 11. -/
def exDB : DB :=
  { organizations := [⟨1, "Org", 10⟩],
    roles := [⟨7, 1⟩, ⟨8, 1⟩],
    committees := [⟨5, 1⟩],
    userRoles := [⟨3, 7⟩, ⟨4, 7⟩, ⟨4, 8⟩],
    rolePermissions := [⟨7, 5, PermissionLevel.MEMBER⟩,
                        ⟨8, 5, PermissionLevel.LEADER⟩],
    tasks := [⟨11, "t", none, TaskStatus.TODO, 5, 10, none, 0⟩],
    taskAssignments := [],
    comments := [] }

/-- Example store with two organizations: user 10 is the admin of
organization 1, user 20 the admin of organization 2; committee 5 and its
task 11 belong to organization 2; no roles exist. -/
def exDB2 : DB :=
  { organizations := [⟨1, "A", 10⟩, ⟨2, "B", 20⟩],
    roles := [],
    committees := [⟨5, 2⟩],
    userRoles := [],
    rolePermissions := [],
    tasks := [⟨11, "t", none, TaskStatus.TODO, 5, 20, none, 0⟩],
    taskAssignments := [],
    comments := [] }

/-- Claim C4: a user who holds zero roles and is not an organization admin
resolves to NONE on every committee, and the MEMBER-gated route (GET
/tasks/committee/:committeeId through checkCommitteePermission) answers
403. -/
theorem zero_roles_resolve_none (db : DB) (u cid : Nat)
    (hroles : userRolesOf db u = [])
    (hadm : findOrg db u = none) :
    highestPermission db u cid = PermissionLevel.NONE ∧
    checkCommitteePermission (Requirement.level PermissionLevel.MEMBER) db
      (some u) (some cid) = MWResult.forbidden := by
  have hperm : highestPermission db u cid = PermissionLevel.NONE := by
    rw [highestPermission, hroles]; rfl
  refine ⟨hperm, ?_⟩
  simp [checkCommitteePermission, hperm, hadm]

/-- Witness for C4: user 77 holds no roles and administers no organization
in `exDB`, and is resolved to NONE and denied on committee 5. -/
theorem zero_roles_resolve_none_witness :
    highestPermission exDB 77 5 = PermissionLevel.NONE ∧
    checkCommitteePermission (Requirement.level PermissionLevel.MEMBER) exDB
      (some 77) (some 5) = MWResult.forbidden :=
  zero_roles_resolve_none exDB 77 5 (by decide)
    (by simp [findOrg, exDB])

/-- Claim C8: a second POST /organizations by a user who already administers
an organization answers the Conflict error and leaves the store unchanged,
so an admin user keeps at most one organization. -/
theorem duplicate_org_creation_conflict (db : DB) (u newId : Nat)
    (name : String) (o : Organization)
    (hmem : o ∈ db.organizations) (hadm : o.adminUserId = u) :
    createOrganization db u name newId = (ApiResult.conflict, db) := by
  cases hfind : findOrg db u with
  | some o2 => simp [createOrganization, hfind]
  | none =>
    exfalso
    rw [findOrg, List.find?_eq_none] at hfind
    exact hfind o hmem (by simp [hadm])

/-- Witness for C8: user 10 already administers organization 1 in `exDB`,
and a second creation attempt returns Conflict with the store unchanged. -/
theorem duplicate_org_creation_conflict_witness :
    createOrganization exDB 10 "Second" 99 = (ApiResult.conflict, exDB) :=
  duplicate_org_creation_conflict exDB 10 99 "Second" ⟨1, "Org", 10⟩
    (by decide) (by decide)

/-- Claim C9: the status state machine is unrestricted — for every ordered
pair of statuses (s1, s2), including s1 = s2, a PATCH /tasks/:id/status by a
user whose resolved permission is at least MEMBER moves the task from s1 to
s2; the permission gate is the only guard. -/
theorem status_transitions_unrestricted (db : DB) (u tid : Nat) (t : Task)
    (c : Committee) (s1 s2 : TaskStatus) (pos : Option Int)
    (ht : db.tasks.find? (fun x => x.id == tid) = some t)
    (_hs1 : t.status = s1)
    (hc : db.committees.find? (fun x => x.id == t.committeeId) = some c)
    (hperm : highestPermission db u t.committeeId ≠ PermissionLevel.NONE) :
    ∃ t2 db2, updateTaskStatus db u tid s2 pos = (ApiResult.ok t2, db2) ∧
      t2.status = s2 := by
  have hacc := hasAccess_of_highest_ne_none db u t.committeeId hperm
  have hgate : (match findOrgScoped db c.organizationId u with
      | some _ => true
      | none => hasAccessScan db u t.committeeId) = true := by
    cases hfs : findOrgScoped db c.organizationId u with
    | some o => rfl
    | none => exact hacc
  exact ⟨_, _, updateTaskStatus_eq db u tid t c s2 pos ht hc hgate, rfl⟩

/-- Witness for C9: user 3 (MEMBER on committee 5) moves task 11 from TODO
straight to DONE. -/
theorem status_transitions_unrestricted_witness :
    ∃ t2 db2, updateTaskStatus exDB 3 11 TaskStatus.DONE none =
        (ApiResult.ok t2, db2) ∧ t2.status = TaskStatus.DONE :=
  status_transitions_unrestricted exDB 3 11
    ⟨11, "t", none, TaskStatus.TODO, 5, 10, none, 0⟩ ⟨5, 1⟩
    TaskStatus.TODO TaskStatus.DONE none (by decide) (by decide) (by decide)
    (by decide)

/-- Claim C10: a status update that omits `position` keeps the stored
position, and every status update leaves the task's title, description, due
date, committee, creator, id — and the comment and assignment tables —
unchanged; only status and position may change, and other tasks survive
as they were. -/
theorem patch_status_frame (db db2 : DB) (u tid : Nat) (t t2 : Task)
    (s : TaskStatus) (pos : Option Int)
    (ht : db.tasks.find? (fun x => x.id == tid) = some t)
    (hok : updateTaskStatus db u tid s pos = (ApiResult.ok t2, db2)) :
    (pos = none → t2.position = t.position) ∧
    t2.title = t.title ∧ t2.description = t.description ∧
    t2.dueDate = t.dueDate ∧ t2.committeeId = t.committeeId ∧
    t2.createdById = t.createdById ∧ t2.id = t.id ∧ t2.status = s ∧
    db2.comments = db.comments ∧ db2.taskAssignments = db.taskAssignments ∧
    (∀ x ∈ db2.tasks, x.id ≠ tid → x ∈ db.tasks) := by
  cases hcm : db.committees.find? (fun x => x.id == t.committeeId) with
  | none =>
    rw [updateTaskStatus_noCommittee db u tid t s pos ht hcm] at hok
    exact absurd hok (by simp)
  | some c =>
    cases hgate : (match findOrgScoped db c.organizationId u with
        | some _ => true
        | none => hasAccessScan db u t.committeeId) with
    | false =>
      rw [updateTaskStatus_forbidden db u tid t c s pos ht hcm hgate] at hok
      exact absurd hok (by simp)
    | true =>
      rw [updateTaskStatus_eq db u tid t c s pos ht hcm hgate,
        Prod.mk.injEq] at hok
      obtain ⟨hok1, hok2⟩ := hok
      rw [ApiResult.ok.injEq] at hok1
      subst hok1
      subst hok2
      refine ⟨fun hp => by rw [hp]; rfl, rfl, rfl, rfl, rfl, rfl, rfl, rfl,
        rfl, rfl, ?_⟩
      intro x hx hneq
      obtain ⟨y, hy, hfy⟩ := List.mem_map.mp hx
      by_cases hyid : (y.id == tid) = true
      · exfalso
        have htid : t.id = tid := by simpa using List.find?_some ht
        apply hneq
        rw [if_pos hyid] at hfy
        rw [← hfy]
        exact htid
      · rw [if_neg hyid] at hfy
        rw [← hfy]
        exact hy

/-- Witness for C10: user 3 moves task 11 to IN_PROGRESS with no position
supplied; the task keeps position 0 and every other field and table. -/
theorem patch_status_frame_witness :
    (none = (none : Option Int) →
      (Task.mk 11 "t" none TaskStatus.IN_PROGRESS 5 10 none 0).position =
        (Task.mk 11 "t" none TaskStatus.TODO 5 10 none 0).position) ∧
    (Task.mk 11 "t" none TaskStatus.IN_PROGRESS 5 10 none 0).title =
      (Task.mk 11 "t" none TaskStatus.TODO 5 10 none 0).title ∧
    (Task.mk 11 "t" none TaskStatus.IN_PROGRESS 5 10 none 0).description =
      (Task.mk 11 "t" none TaskStatus.TODO 5 10 none 0).description ∧
    (Task.mk 11 "t" none TaskStatus.IN_PROGRESS 5 10 none 0).dueDate =
      (Task.mk 11 "t" none TaskStatus.TODO 5 10 none 0).dueDate ∧
    (Task.mk 11 "t" none TaskStatus.IN_PROGRESS 5 10 none 0).committeeId =
      (Task.mk 11 "t" none TaskStatus.TODO 5 10 none 0).committeeId ∧
    (Task.mk 11 "t" none TaskStatus.IN_PROGRESS 5 10 none 0).createdById =
      (Task.mk 11 "t" none TaskStatus.TODO 5 10 none 0).createdById ∧
    (Task.mk 11 "t" none TaskStatus.IN_PROGRESS 5 10 none 0).id =
      (Task.mk 11 "t" none TaskStatus.TODO 5 10 none 0).id ∧
    (Task.mk 11 "t" none TaskStatus.IN_PROGRESS 5 10 none 0).status =
      TaskStatus.IN_PROGRESS ∧
    ((updateTaskStatus exDB 3 11 TaskStatus.IN_PROGRESS none).2).comments =
      exDB.comments ∧
    ((updateTaskStatus exDB 3 11 TaskStatus.IN_PROGRESS none).2).taskAssignments =
      exDB.taskAssignments ∧
    (∀ x ∈ ((updateTaskStatus exDB 3 11 TaskStatus.IN_PROGRESS none).2).tasks,
      x.id ≠ 11 → x ∈ exDB.tasks) :=
  patch_status_frame exDB
    ((updateTaskStatus exDB 3 11 TaskStatus.IN_PROGRESS none).2) 3 11
    (Task.mk 11 "t" none TaskStatus.TODO 5 10 none 0)
    (Task.mk 11 "t" none TaskStatus.IN_PROGRESS 5 10 none 0)
    TaskStatus.IN_PROGRESS none (by decide) (by decide)

/-- Claim C2: on a store whose permission keys are unique (the migration's
unique index), the effective permission computed by the scan — including its
LEADER early exit — equals the maximum over the user's roles of the level
granted by each role's row for the committee, missing rows contributing
NONE, in the order NONE < MEMBER < LEADER. -/
theorem resolver_is_max_over_roles (db : DB) (u c : Nat)
    (hu : permKeysUnique db.rolePermissions) :
    highestPermission db u c = specResolve db u c := by
  rw [highestPermission, specResolve,
    scanUserRoles_eq_foldl db c hu (userRolesOf db u) PermissionLevel.NONE,
    List.foldl_map]
  rfl

/-- Witness for C2: user 4 holds MEMBER via role 7 and LEADER via role 8 on
committee 5 in `exDB`; the scan agrees with the max formulation and yields
LEADER. -/
theorem resolver_is_max_over_roles_witness :
    permKeysUnique exDB.rolePermissions ∧
    highestPermission exDB 4 5 = specResolve exDB 4 5 ∧
    highestPermission exDB 4 5 = PermissionLevel.LEADER :=
  ⟨by decide, resolver_is_max_over_roles exDB 4 5 (by decide), by decide⟩

/-- Claim C6: a user whose resolved permission on a committee is exactly
MEMBER is rejected with 403 by POST /tasks (and nothing is created), while
PATCH /tasks/:id/status and POST /tasks/:id/comments succeed for tasks of
that committee. -/
theorem member_level_capabilities (db : DB)
    (u tid newTaskId newCommentId : Nat) (t : Task) (c : Committee)
    (req : CreateTaskRequest) (s : TaskStatus) (pos : Option Int)
    (content : String)
    (ht : db.tasks.find? (fun x => x.id == tid) = some t)
    (hc : db.committees.find? (fun x => x.id == t.committeeId) = some c)
    (hreq : req.committeeId = t.committeeId)
    (hperm : highestPermission db u t.committeeId = PermissionLevel.MEMBER) :
    postTask db (some u) req newTaskId = (ApiResult.forbidden, db) ∧
    (∃ t2 db2, updateTaskStatus db u tid s pos = (ApiResult.ok t2, db2)) ∧
    (∃ cm db3, addComment db u tid content newCommentId =
      (ApiResult.ok cm, db3)) := by
  have hne : highestPermission db u t.committeeId ≠ PermissionLevel.NONE := by
    rw [hperm]; intro hx; cases hx
  have hacc := hasAccess_of_highest_ne_none db u t.committeeId hne
  have hgate : (match findOrgScoped db c.organizationId u with
      | some _ => true
      | none => hasAccessScan db u t.committeeId) = true := by
    cases hfs : findOrgScoped db c.organizationId u with
    | some o => rfl
    | none => exact hacc
  refine ⟨?_, ⟨_, _, updateTaskStatus_eq db u tid t c s pos ht hc hgate⟩,
    ⟨_, _, addComment_eq db u tid newCommentId content t c ht hc hgate⟩⟩
  simp [postTask, checkCommitteePermission, hreq, hperm]

/-- Witness for C6: user 3 has exactly MEMBER on committee 5 in `exDB`; task
creation is rejected with no write, while a status move and a comment on
task 11 both succeed. -/
theorem member_level_capabilities_witness :
    postTask exDB (some 3) (CreateTaskRequest.mk "x" none 5 none none) 50 =
        (ApiResult.forbidden, exDB) ∧
    (∃ t2 db2, updateTaskStatus exDB 3 11 TaskStatus.IN_PROGRESS none =
      (ApiResult.ok t2, db2)) ∧
    (∃ cm db3, addComment exDB 3 11 "hello" 60 = (ApiResult.ok cm, db3)) :=
  member_level_capabilities exDB 3 11 50 60
    ⟨11, "t", none, TaskStatus.TODO, 5, 10, none, 0⟩ ⟨5, 1⟩
    (CreateTaskRequest.mk "x" none 5 none none) TaskStatus.IN_PROGRESS none
    "hello" (by decide) (by decide) (by decide) (by decide)

lemma option_match_elim (o : Option Int) :
    (match o with | some m => m + 1 | none => 0) =
      o.elim 0 (fun m => m + 1) := by
  cases o <;> rfl

/-- Evaluation of the full POST /tasks route when the caller's resolved
level is LEADER and the committee exists: the middleware proceeds and the
handler inserts the new row. -/
lemma postTask_grant (db : DB) (u newId : Nat) (req : CreateTaskRequest)
    (c : Committee)
    (hc : db.committees.find? (fun x => x.id == req.committeeId) = some c)
    (hperm : highestPermission db u req.committeeId =
      PermissionLevel.LEADER) :
    postTask db (some u) req newId =
      (ApiResult.ok (newTask db u req newId),
       { db with tasks := db.tasks ++ [newTask db u req newId],
                 taskAssignments := db.taskAssignments ++
                   ((req.assigneeIds.getD []).map
                     (fun uid => TaskAssignment.mk newId uid)) }) := by
  simp [postTask, checkCommitteePermission, hperm, createTaskHandler, hc]

/-- Claim C7: a task created through POST /tasks lands in status TODO with
position one past the maximum position of the committee's TODO column (0
when that column is empty); after a PATCH moving it to DONE with a supplied
position, it is listed in the DONE column with the new position and is
absent from the TODO column. -/
theorem task_create_move_roundtrip (db : DB) (u newId : Nat)
    (req : CreateTaskRequest) (c : Committee) (p : Int)
    (hc : db.committees.find? (fun x => x.id == req.committeeId) = some c)
    (hperm : highestPermission db u req.committeeId = PermissionLevel.LEADER)
    (hfresh : ∀ x ∈ db.tasks, x.id ≠ newId) :
    ∃ T db1 T2 db2,
      postTask db (some u) req newId = (ApiResult.ok T, db1) ∧
      T.status = TaskStatus.TODO ∧
      T.position = (((todoTasks db req.committeeId).map Task.position).max?.elim
        0 (fun m => m + 1)) ∧
      updateTaskStatus db1 u newId TaskStatus.DONE (some p) =
        (ApiResult.ok T2, db2) ∧
      T2.position = p ∧ T2.status = TaskStatus.DONE ∧
      T2 ∈ tasksInColumn db2 req.committeeId TaskStatus.DONE ∧
      (∀ x ∈ tasksInColumn db2 req.committeeId TaskStatus.TODO,
        x.id ≠ newId) := by
  have hfalse : ∀ x ∈ db.tasks, ((fun y => y.id == newId) x) = false := by
    intro x hx
    simpa using hfresh x hx
  refine ⟨newTask db u req newId, _, _, _,
    postTask_grant db u newId req c hc hperm, rfl, option_match_elim _,
    updateTaskStatus_eq _ u newId (newTask db u req newId) c
      TaskStatus.DONE (some p) ?ht2 ?hc2 ?hgate, rfl, rfl, ?mem, ?abs⟩
  case ht2 =>
    show (db.tasks ++ [newTask db u req newId]).find?
      (fun x => x.id == newId) = some (newTask db u req newId)
    rw [find?_append_of_none _ _ _ hfalse]
    simp [newTask]
  case hc2 => exact hc
  case hgate =>
    show (match findOrgScoped db c.organizationId u with
          | some _ => true
          | none => hasAccessScan db u req.committeeId) = true
    have hne : highestPermission db u req.committeeId ≠
        PermissionLevel.NONE := by
      rw [hperm]; intro hx; cases hx
    have hacc := hasAccess_of_highest_ne_none db u req.committeeId hne
    cases hfs : findOrgScoped db c.organizationId u with
    | some o => rfl
    | none => exact hacc
  case mem =>
    simp only [tasksInColumn]
    apply List.mem_filter.mpr
    constructor
    · apply List.mem_map.mpr
      refine ⟨newTask db u req newId, ?_, by simp [newTask]⟩
      show _ ∈ db.tasks ++ [newTask db u req newId]
      exact List.mem_append_right _ (List.mem_singleton_self _)
    · simp [newTask]
  case abs =>
    intro x hx
    simp only [tasksInColumn] at hx
    rcases List.mem_filter.mp hx with ⟨hmem, hcol⟩
    rcases List.mem_map.mp hmem with ⟨y, hy, hfy⟩
    have hy2 : y ∈ db.tasks ++ [newTask db u req newId] := hy
    rcases List.mem_append.mp hy2 with hold | hnew
    · have hyb : (y.id == newId) = false := by simpa using hfresh y hold
      rw [if_neg (by simp [hyb])] at hfy
      rw [← hfy]
      exact hfresh y hold
    · exfalso
      rw [List.mem_singleton.mp hnew] at hfy
      rw [if_pos (by simp [newTask])] at hfy
      rw [← hfy] at hcol
      simp [newTask] at hcol

/-- Witness for C7: user 4 (LEADER on committee 5) creates task 50 in
`exDB` — it lands in TODO at position 1 (one past task 11 at position 0) —
then moves it to DONE at position 2. -/
theorem task_create_move_roundtrip_witness :
    ∃ T db1 T2 db2,
      postTask exDB (some 4) (CreateTaskRequest.mk "x" none 5 none none) 50 =
        (ApiResult.ok T, db1) ∧
      T.status = TaskStatus.TODO ∧
      T.position = (((todoTasks exDB 5).map Task.position).max?.elim 0
        (fun m => m + 1)) ∧
      updateTaskStatus db1 4 50 TaskStatus.DONE (some 2) =
        (ApiResult.ok T2, db2) ∧
      T2.position = 2 ∧ T2.status = TaskStatus.DONE ∧
      T2 ∈ tasksInColumn db2 5 TaskStatus.DONE ∧
      (∀ x ∈ tasksInColumn db2 5 TaskStatus.TODO, x.id ≠ 50) :=
  task_create_move_roundtrip exDB 4 50
    (CreateTaskRequest.mk "x" none 5 none none) ⟨5, 1⟩ 2
    (by decide) (by decide) (by decide)

/-- Counterexample to C1 as stated: in `exDB` user 10 is the admin of
organization 1, which owns committee 5, yet the checkCommitteePermission
middleware with requirement MEMBER (the GET /tasks/committee/:committeeId
gate) and with requirement LEADER (the POST /tasks gate) answers 403
instead of granting immediately; the POST /tasks route rejects the admin
and writes nothing. -/
theorem admin_override_middleware_cex :
    (findOrgScoped exDB 1 10).isSome = true ∧
    exDB.committees.find? (fun c => c.id == 5) = some ⟨5, 1⟩ ∧
    checkCommitteePermission (Requirement.level PermissionLevel.MEMBER) exDB
      (some 10) (some 5) = MWResult.forbidden ∧
    checkCommitteePermission (Requirement.level PermissionLevel.LEADER) exDB
      (some 10) (some 5) = MWResult.forbidden ∧
    postTask exDB (some 10) (CreateTaskRequest.mk "x" none 5 none none) 50 =
      (ApiResult.forbidden, exDB) := by
  decide

/-- Amended C1: the admin override holds for the in-handler checks — the
GET /committees/:id resolution returns LEADER for the owning organization's
admin regardless of roles, and PATCH /tasks/:id/status admits the admin —
but the checkCommitteePermission middleware short-circuits for an admin
only when the declared requirement is ADMIN; for MEMBER and LEADER
requirements (GET /tasks/committee/:committeeId, POST /tasks) the admin is
subject to the role scan and is denied 403 whenever their roles resolve to
NONE. -/
theorem admin_override_corrected (db : DB) (u tid : Nat) (c : Committee)
    (o : Organization) (t : Task) (s : TaskStatus) (pos : Option Int)
    (hadm : findOrgScoped db c.organizationId u = some o)
    (ht : db.tasks.find? (fun x => x.id == tid) = some t)
    (hc : db.committees.find? (fun x => x.id == t.committeeId) = some c) :
    getCommitteeUserPermission db u c = PermissionLevel.LEADER ∧
    (∃ t2 db2, updateTaskStatus db u tid s pos = (ApiResult.ok t2, db2) ∧
      t2.status = s) ∧
    (highestPermission db u c.id = PermissionLevel.NONE →
      checkCommitteePermission (Requirement.level PermissionLevel.MEMBER) db
        (some u) (some c.id) = MWResult.forbidden ∧
      checkCommitteePermission (Requirement.level PermissionLevel.LEADER) db
        (some u) (some c.id) = MWResult.forbidden) := by
  refine ⟨?_, ?_, ?_⟩
  · simp [getCommitteeUserPermission, hadm]
  · have hgate : (match findOrgScoped db c.organizationId u with
        | some _ => true
        | none => hasAccessScan db u t.committeeId) = true := by
      rw [hadm]
    exact ⟨_, _, updateTaskStatus_eq db u tid t c s pos ht hc hgate, rfl⟩
  · intro hnone
    constructor <;> simp [checkCommitteePermission, hnone]

/-- Witness for the amended C1: user 10, the admin of organization 1 in
`exDB`, resolves to LEADER in the committee read, may move task 11, and —
holding no roles — is denied by the MEMBER/LEADER middleware gates on
committee 5. -/
theorem admin_override_corrected_witness :
    getCommitteeUserPermission exDB 10 ⟨5, 1⟩ = PermissionLevel.LEADER ∧
    (∃ t2 db2, updateTaskStatus exDB 10 11 TaskStatus.DONE none =
      (ApiResult.ok t2, db2) ∧ t2.status = TaskStatus.DONE) ∧
    (highestPermission exDB 10 5 = PermissionLevel.NONE →
      checkCommitteePermission (Requirement.level PermissionLevel.MEMBER) exDB
        (some 10) (some 5) = MWResult.forbidden ∧
      checkCommitteePermission (Requirement.level PermissionLevel.LEADER) exDB
        (some 10) (some 5) = MWResult.forbidden) :=
  admin_override_corrected exDB 10 11 ⟨5, 1⟩ ⟨1, "Org", 10⟩
    ⟨11, "t", none, TaskStatus.TODO, 5, 10, none, 0⟩ TaskStatus.DONE none
    (by decide) (by decide) (by decide)

/-- Counterexample to C3 as stated: in `exDB2` user 10 administers only
organization 1, and committee 5 belongs to organization 2, yet the
checkIsAdmin-gated DELETE /committees/:id grants user 10 admin access to
committee 5 and deletes it — the committee's owning organization is never
compared to the caller. -/
theorem admin_scope_checkIsAdmin_cex :
    findOrgScoped exDB2 2 10 = none ∧
    exDB2.committees.find? (fun c => c.id == 5) = some ⟨5, 2⟩ ∧
    (findOrg exDB2 10).isSome = true ∧
    (deleteCommittee exDB2 10 5).1 = ApiResult.ok () ∧
    ((deleteCommittee exDB2 10 5).2).committees = [] := by
  decide

/-- Amended C3: the resolver-based checks do scope the admin short-circuit
to the committee's owning organization — a caller who is not that
organization's admin and whose roles grant nothing is denied 403 by GET
/tasks/:id, PATCH /tasks/:id/status and the checkCommitteePermission
middleware — but the routes gated by checkIsAdmin (committee and role
administration, e.g. DELETE /committees/:id) grant any user who administers
some organization, without consulting the committee's owning
organization. -/
theorem admin_scope_corrected (db : DB) (u tid cid2 : Nat) (t : Task)
    (c c2 : Committee) (s : TaskStatus) (pos : Option Int)
    (ht : db.tasks.find? (fun x => x.id == tid) = some t)
    (hc : db.committees.find? (fun x => x.id == t.committeeId) = some c)
    (hnadm : findOrgScoped db c.organizationId u = none)
    (hscan : hasAccessScan db u t.committeeId = false)
    (hisadm : checkIsAdmin db u = true)
    (hc2 : db.committees.find? (fun x => x.id == cid2) = some c2) :
    getTask db u tid = ApiResult.forbidden ∧
    updateTaskStatus db u tid s pos = (ApiResult.forbidden, db) ∧
    checkCommitteePermission (Requirement.level PermissionLevel.MEMBER) db
      (some u) (some t.committeeId) = MWResult.forbidden ∧
    (deleteCommittee db u cid2).1 = ApiResult.ok () := by
  have hnone := highest_none_of_not_hasAccess db u t.committeeId hscan
  refine ⟨?_, ?_, ?_, ?_⟩
  · simp [getTask, ht, hc, hnadm, hscan]
  · have hgate : (match findOrgScoped db c.organizationId u with
        | some _ => true
        | none => hasAccessScan db u t.committeeId) = false := by
      rw [hnadm]
      exact hscan
    exact updateTaskStatus_forbidden db u tid t c s pos ht hc hgate
  · simp [checkCommitteePermission, hnone]
  · simp [deleteCommittee, hisadm, hc2]

/-- Witness for the amended C3: in `exDB2`, user 10 (admin of organization
1 only) is denied on committee 5 of organization 2 by the task read, the
status update and the middleware, yet DELETE /committees/:id lets user 10
delete that same committee. -/
theorem admin_scope_corrected_witness :
    getTask exDB2 10 11 = ApiResult.forbidden ∧
    updateTaskStatus exDB2 10 11 TaskStatus.DONE none =
      (ApiResult.forbidden, exDB2) ∧
    checkCommitteePermission (Requirement.level PermissionLevel.MEMBER) exDB2
      (some 10) (some 5) = MWResult.forbidden ∧
    (deleteCommittee exDB2 10 5).1 = ApiResult.ok () :=
  admin_scope_corrected exDB2 10 11 5
    ⟨11, "t", none, TaskStatus.TODO, 5, 20, none, 0⟩ ⟨5, 2⟩ ⟨5, 2⟩
    TaskStatus.DONE none (by decide) (by decide) (by decide) (by decide)
    (by decide) (by decide)

lemma filter_not_role_rowsToCreate (r : Nat) (ps : List PermissionEntry) :
    (rowsToCreate r ps).filter (fun p => !(p.roleId == r)) = [] :=
  filter_not_role_of_created r
    (ps.filter (fun p => !(p.permissionLevel == PermissionLevel.NONE)))

/-- Evaluation of POST /roles/permissions when the caller is an admin and
the createMany succeeds. -/
lemma setRolePermissions_ok (db : DB) (u roleId : Nat)
    (ps : List PermissionEntry)
    (hadm : checkIsAdmin db u = true)
    (hcond : createManyOk db roleId (rowsToCreate roleId ps)) :
    setRolePermissions db u roleId ps =
      (ApiResult.ok (),
       { db with rolePermissions :=
           db.rolePermissions.filter (fun x => !(x.roleId == roleId)) ++
             rowsToCreate roleId ps }) := by
  simp only [setRolePermissions]
  rw [if_pos hadm, if_pos hcond]

/-- Evaluation of POST /roles/permissions when the caller is an admin and
the createMany fails (500): the deletions stay committed. -/
lemma setRolePermissions_fail (db : DB) (u roleId : Nat)
    (ps : List PermissionEntry)
    (hadm : checkIsAdmin db u = true)
    (hcond : ¬ createManyOk db roleId (rowsToCreate roleId ps)) :
    setRolePermissions db u roleId ps =
      (ApiResult.serverError,
       { db with rolePermissions :=
           db.rolePermissions.filter (fun x => !(x.roleId == roleId)) }) := by
  simp only [setRolePermissions]
  rw [if_pos hadm, if_neg hcond]

/-- Claim C5: setting a role's permissions is idempotent — running the same
request again on the resulting store leaves it unchanged — and the
resulting store keeps at most one row per (role, committee) pair and no row
with level NONE (NONE entries produce the absence of a row). -/
theorem set_permissions_idempotent (db db1 : DB) (r1 : ApiResult Unit)
    (u roleId : Nat) (ps : List PermissionEntry)
    (hadm : checkIsAdmin db u = true)
    (hu : permKeysUnique db.rolePermissions)
    (hn : noNoneRows db.rolePermissions)
    (h1 : setRolePermissions db u roleId ps = (r1, db1)) :
    (setRolePermissions db1 u roleId ps).2 = db1 ∧
    permKeysUnique db1.rolePermissions ∧
    noNoneRows db1.rolePermissions := by
  by_cases hcond : createManyOk db roleId (rowsToCreate roleId ps)
  · rw [setRolePermissions_ok db u roleId ps hadm hcond,
      Prod.mk.injEq] at h1
    have hrp : db1.rolePermissions =
        db.rolePermissions.filter (fun x => !(x.roleId == roleId)) ++
          rowsToCreate roleId ps := by
      rw [← h1.2]
    have hadm1 : checkIsAdmin db1 u = true := by
      rw [← h1.2]; exact hadm
    have hcond1 : createManyOk db1 roleId (rowsToCreate roleId ps) := by
      rw [← h1.2]; exact hcond
    refine ⟨?_, ?_, ?_⟩
    · rw [setRolePermissions_ok db1 u roleId ps hadm1 hcond1]
      show { db1 with rolePermissions :=
          db1.rolePermissions.filter (fun x => !(x.roleId == roleId)) ++
            rowsToCreate roleId ps } = db1
      rw [hrp, List.filter_append, filter_not_role_idem,
        filter_not_role_rowsToCreate, List.append_nil, ← hrp]
    · rw [hrp]
      apply List.pairwise_append.mpr
      refine ⟨List.Pairwise.sublist (List.filter_sublist _) hu, ?_, ?_⟩
      · have hnd := List.pairwise_map.mp hcond.1
        exact hnd.imp (fun hab hcontra => hab hcontra.2)
      · intro a ha b hb
        have haq : a.roleId ≠ roleId := by
          simpa using (List.mem_filter.mp ha).2
        obtain ⟨pe, hpe, hb2⟩ := List.mem_map.mp hb
        intro hcontra
        exact haq (hcontra.1.trans (by rw [← hb2]))
    · rw [hrp]
      intro p hp
      rcases List.mem_append.mp hp with hpm | hpc
      · exact hn p (List.mem_filter.mp hpm).1
      · obtain ⟨pe, hpe, hback⟩ := List.mem_map.mp hpc
        have hlev := (List.mem_filter.mp hpe).2
        rw [← hback]
        simpa using hlev
  · rw [setRolePermissions_fail db u roleId ps hadm hcond,
      Prod.mk.injEq] at h1
    have hrp : db1.rolePermissions =
        db.rolePermissions.filter (fun x => !(x.roleId == roleId)) := by
      rw [← h1.2]
    have hadm1 : checkIsAdmin db1 u = true := by
      rw [← h1.2]; exact hadm
    have hcond1 : ¬ createManyOk db1 roleId (rowsToCreate roleId ps) := by
      rw [← h1.2]; exact hcond
    refine ⟨?_, ?_, ?_⟩
    · rw [setRolePermissions_fail db1 u roleId ps hadm1 hcond1]
      show { db1 with rolePermissions :=
          db1.rolePermissions.filter (fun x => !(x.roleId == roleId)) } = db1
      rw [hrp, filter_not_role_idem, ← hrp]
    · rw [hrp]
      exact List.Pairwise.sublist (List.filter_sublist _) hu
    · rw [hrp]
      intro p hp
      exact hn p (List.mem_filter.mp hp).1

/-- Witness for C5: the admin (user 10) sets role 7's permissions in `exDB`
to one LEADER entry for committee 5 plus a NONE entry; rerunning the call
leaves the resulting store unchanged and the invariants hold. -/
theorem set_permissions_idempotent_witness :
    (setRolePermissions
        (setRolePermissions exDB 10 7
          [PermissionEntry.mk 5 PermissionLevel.LEADER,
           PermissionEntry.mk 9 PermissionLevel.NONE]).2 10 7
        [PermissionEntry.mk 5 PermissionLevel.LEADER,
         PermissionEntry.mk 9 PermissionLevel.NONE]).2 =
      (setRolePermissions exDB 10 7
        [PermissionEntry.mk 5 PermissionLevel.LEADER,
         PermissionEntry.mk 9 PermissionLevel.NONE]).2 ∧
    permKeysUnique ((setRolePermissions exDB 10 7
      [PermissionEntry.mk 5 PermissionLevel.LEADER,
       PermissionEntry.mk 9 PermissionLevel.NONE]).2).rolePermissions ∧
    noNoneRows ((setRolePermissions exDB 10 7
      [PermissionEntry.mk 5 PermissionLevel.LEADER,
       PermissionEntry.mk 9 PermissionLevel.NONE]).2).rolePermissions :=
  set_permissions_idempotent exDB
    (setRolePermissions exDB 10 7
      [PermissionEntry.mk 5 PermissionLevel.LEADER,
       PermissionEntry.mk 9 PermissionLevel.NONE]).2
    (setRolePermissions exDB 10 7
      [PermissionEntry.mk 5 PermissionLevel.LEADER,
       PermissionEntry.mk 9 PermissionLevel.NONE]).1
    10 7
    [PermissionEntry.mk 5 PermissionLevel.LEADER,
     PermissionEntry.mk 9 PermissionLevel.NONE]
    (by decide) (by decide) (by decide) rfl

end StudentOrg